import Mathlib

/-!
# Verification of the wave-chat relay server core

A shallow embedding of the socket event handlers of the relay server
(`register`, `connect-request`, `accept`, `reject`, `message`, `typing`,
`leave`, `disconnect`) together with proofs of the documented invariants
and behaviours, and counterexamples where the code deviates from them.

The three server tables (`UserIdToSocket`, `SocketToUserId`, `UserToRoom`)
and the `Rooms` table are JavaScript `Map`s keyed by strings; they are
embedded as association lists with functional lookup.  Client payloads are
arbitrary attacker-controlled JSON-ish values, embedded as `JValue`.
Handlers produce a new state plus a trace of observable effects (emits,
acknowledgments, forcible socket closes); the one handler expression that
can raise a JavaScript `TypeError` is recorded through the `threw` flag.
-/

namespace WaveChat

/-- A JavaScript-ish runtime value, as delivered by the transport layer for
an event payload.  Objects are association lists of fields. -/
inductive JValue where
  | null
  | undefined
  | str (s : String)
  | num (n : Int)
  | bool (b : Bool)
  | obj (fields : List (String × JValue))

/-- JavaScript truthiness of a value (`NaN` is not modelled; numbers are
integers). -/
def JValue.truthy : JValue → Bool
  | .null => false
  | .undefined => false
  | .str s => s ≠ ""
  | .num n => n ≠ 0
  | .bool b => b
  | .obj _ => true

/-- Property access `v.k` after the `payload || {}` guard: fields of an
object, `undefined` on anything else (destructuring a primitive yields
`undefined`; `null`/`undefined` are replaced by `{}` by the guard). -/
def JValue.get (v : JValue) (k : String) : JValue :=
  match v with
  | .obj fields =>
    match fields.find? (fun p => p.1 == k) with
    | some p => p.2
    | none => .undefined
  | _ => .undefined

/-- JavaScript `String.prototype.trim`: strip leading and trailing
whitespace (embedded structurally so that it evaluates). -/
def jsTrim (s : String) : String :=
  String.mk
    (((s.data.dropWhile Char.isWhitespace).reverse.dropWhile
      Char.isWhitespace).reverse)

/-- JavaScript strict equality `===` on payload field values.  Distinct
decoded objects are distinct references, hence never strictly equal. -/
def jsEq : JValue → JValue → Bool
  | .null, .null => true
  | .undefined, .undefined => true
  | .str a, .str b => a == b
  | .num a, .num b => a == b
  | .bool a, .bool b => a == b
  | _, _ => false

/-- The value stored in the `Rooms` table: the two member identities of a
room (`Rooms.set(roomId, { a: fromId, b: toId })`). -/
structure RoomMeta where
  a : String
  b : String
deriving DecidableEq

/-- Functional lookup in a string-keyed association list (JS `Map.get`). -/
def mapFind? {α : Type} (l : List (String × α)) (k : String) : Option α :=
  match l with
  | [] => none
  | p :: t => if p.1 = k then some p.2 else mapFind? t k

/-- Key removal in a string-keyed association list (JS `Map.delete`). -/
def mapErase {α : Type} (l : List (String × α)) (k : String) : List (String × α) :=
  match l with
  | [] => []
  | p :: t => if p.1 = k then mapErase t k else p :: mapErase t k

/-- Key update in a string-keyed association list (JS `Map.set`). -/
def mapInsert {α : Type} (l : List (String × α)) (k : String) (v : α) :
    List (String × α) :=
  (k, v) :: mapErase l k

/-- Number of entries stored under a key. -/
def countKey {α : Type} (l : List (String × α)) (k : String) : Nat :=
  match l with
  | [] => 0
  | p :: t => (if p.1 = k then 1 else 0) + countKey t k

/-- The server's whole mutable state.  The four tables are the module-level
maps of the models module (the spec's Identity Registry, Busy Index and Room
table); `live` is the set of currently connected sockets
(`io.sockets.sockets`). -/
structure ServerState where
  userIdToSocket : List (String × String)
  socketToUserId : List (String × String)
  userToRoom : List (String × String)
  rooms : List (String × RoomMeta)
  live : List String
deriving DecidableEq

/-- A server-to-client event together with its payload. -/
inductive SEvent where
  | registered (userId : String)
  | incomingInvite (fromId toId : JValue) (inviteId : String)
  | connectError (code : String) (reason : Option String) (toId : Option JValue)
  | connected (roomId : String) (a b : String)
  | message (roomId senderId : JValue) (text : String) (ts : Nat)
  | typing (roomId userId : JValue) (isTyping : Bool)
  | ended (roomId : String) (reason : String)

/-- An externally observable effect of one handler invocation, in the order
the handler performs it. -/
inductive Effect where
  | emitToSocket (sid : String) (ev : SEvent)
  | emitToRoom (room : JValue) (ev : SEvent)
  | ack (ok : Bool) (err : Option String)
  | closeSocket (sid : String)
  | joinRoom (sid : String) (room : String)

/-- Result of running one handler: the state after it, the effect trace,
and whether the handler raised a runtime `TypeError`. -/
structure StepResult where
  state : ServerState
  effects : List Effect
  threw : Bool

/-- Modelled from the spec: `isBusy` (from the utils module, absent from the
repository snapshot) is the Presence/Busy Index query — an identity is busy
iff it has a `UserToRoom` entry.  Looking a non-string value up in a
string-keyed `Map` finds nothing. -/
def isBusy (st : ServerState) (v : JValue) : Bool :=
  match v with
  | .str s => (mapFind? st.userToRoom s).isSome
  | _ => false

/-- Largest length of a key of the `Rooms` table. -/
def roomKeyBound (l : List (String × RoomMeta)) : Nat :=
  match l with
  | [] => 0
  | p :: t => max p.1.length (roomKeyBound t)

/-- Modelled from the spec: `makeId` (from the utils module, absent from the
repository snapshot) generates an opaque, unguessable identifier, used for
`inviteId` and `RoomId`.  Modelled as an identifier that is fresh with
respect to every existing room key. -/
def makeId (st : ServerState) : String :=
  String.mk (List.replicate (roomKeyBound st.rooms + 1) 'r')

/-- `endRoom(roomId, reason)`: no-op if the room is unknown; otherwise emit
`ended` to the room scope, clear both members from the Busy Index, delete
the room. -/
def endRoom (st : ServerState) (roomId : String) (reason : String) :
    ServerState × List Effect :=
  match mapFind? st.rooms roomId with
  | none => (st, [])
  | some meta =>
    ({ st with
        userToRoom := mapErase (mapErase st.userToRoom meta.a) meta.b
        rooms := mapErase st.rooms roomId },
      [Effect.emitToRoom (.str roomId) (.ended roomId reason)])

/-- Body of the `disconnect` handler: drop the socket's registry entries,
then tear down its room, if any. -/
def disconnectCleanup (st : ServerState) (sid : String) :
    ServerState × List Effect :=
  match mapFind? st.socketToUserId sid with
  | none => (st, [])
  | some userId =>
    let st1 := { st with
      socketToUserId := mapErase st.socketToUserId sid
      userIdToSocket := mapErase st.userIdToSocket userId }
    match mapFind? st1.userToRoom userId with
    | none => (st1, [])
    | some roomId => endRoom st1 roomId "disconnect"

/-- The `register` handler.  Rejects a falsy or non-string `userId`.  If the
identity is already held by a different live socket, that socket is
forcibly disconnected — which runs its `disconnect` handler synchronously —
before both registry mappings are overwritten; then `registered` is emitted
and the registration acknowledged. -/
def doRegister (st : ServerState) (sid : String) (userId : JValue) : StepResult :=
  match userId with
  | .str s =>
    if s = "" then ⟨st, [Effect.ack false (some "Invalid userId")], false⟩
    else
      let kicked : ServerState × List Effect :=
        match mapFind? st.userIdToSocket s with
        | some old =>
          if old ≠ sid ∧ old ∈ st.live then
            let cleaned := disconnectCleanup
              { st with live := st.live.filter (fun x => x ≠ old) } old
            (cleaned.1, Effect.closeSocket old :: cleaned.2)
          else (st, [])
        | none => (st, [])
      ⟨{ kicked.1 with
          userIdToSocket := mapInsert kicked.1.userIdToSocket s sid
          socketToUserId := mapInsert kicked.1.socketToUserId sid s },
        kicked.2 ++ [Effect.emitToSocket sid (.registered s), Effect.ack true none],
        false⟩
  | _ => ⟨st, [Effect.ack false (some "Invalid userId")], false⟩

/-- Socket lookup `UserIdToSocket.get(x)` for a payload field value. -/
def lookupSocket (st : ServerState) (v : JValue) : Option String :=
  match v with
  | .str s => mapFind? st.userIdToSocket s
  | _ => none

/-- The `connect-request` handler, exactly as the source: note the target
busy branch emits its error and negative ack but does not return, so
control falls through to the invite emission and the positive ack. -/
def doConnectRequest (st : ServerState) (sid : String) (payload : JValue) :
    StepResult :=
  let fromId := payload.get "fromId"
  let toId := payload.get "toId"
  if !fromId.truthy || !toId.truthy || jsEq fromId toId then
    ⟨st, [Effect.ack false (some "Invalid connect payload")], false⟩
  else if isBusy st fromId then
    ⟨st, [Effect.emitToSocket sid
            (.connectError "BUSY" (some "You are already in a chat.") none),
          Effect.ack false (some "You are busy")], false⟩
  else
    match lookupSocket st toId with
    | none =>
      ⟨st, [Effect.emitToSocket sid (.connectError "OFFLINE" none (some toId)),
            Effect.ack false (some "Target offline")], false⟩
    | some toSocketId =>
      let busyEffects : List Effect :=
        if isBusy st toId then
          [Effect.emitToSocket sid (.connectError "BUSY" none (some toId)),
           Effect.ack false (some "Target busy")]
        else []
      ⟨st, busyEffects ++
            [Effect.emitToSocket toSocketId
              (.incomingInvite fromId toId (makeId st)),
             Effect.ack true none], false⟩

/-- The `accept` handler: validates the ids are truthy, both parties not
busy and both online, then creates the room, records both members in the
Busy Index, joins both live sockets to the room scope, broadcasts
`connected` and acknowledges.  A non-string id finds no socket in the
string-keyed table, hence takes the offline branch. -/
def doAccept (st : ServerState) (_sid : String) (payload : JValue) : StepResult :=
  let fromId := payload.get "fromId"
  let toId := payload.get "toId"
  if !fromId.truthy || !toId.truthy then
    ⟨st, [Effect.ack false (some "Invalid accept payload")], false⟩
  else if isBusy st fromId || isBusy st toId then
    ⟨st, [Effect.ack false (some "One party is busy")], false⟩
  else
    match fromId, toId with
    | .str x, .str y =>
      (match mapFind? st.userIdToSocket x, mapFind? st.userIdToSocket y with
        | some aSock, some bSock =>
          let roomId := makeId st
          ⟨{ st with
              rooms := mapInsert st.rooms roomId ⟨x, y⟩
              userToRoom := mapInsert (mapInsert st.userToRoom x roomId) y roomId },
            ((if aSock ∈ st.live then [Effect.joinRoom aSock roomId] else []) ++
             (if bSock ∈ st.live then [Effect.joinRoom bSock roomId] else []) ++
             [Effect.emitToRoom (.str roomId) (.connected roomId x y),
              Effect.ack true none]), false⟩
        | _, _ => ⟨st, [Effect.ack false (some "One party went offline")], false⟩)
    | _, _ => ⟨st, [Effect.ack false (some "One party went offline")], false⟩

/-- The `reject` handler: no validation; notify the initiator's socket if it
exists, acknowledge `true` regardless. -/
def doReject (st : ServerState) (_sid : String) (payload : JValue) : StepResult :=
  let toId := payload.get "toId"
  let notify : List Effect :=
    if toId.truthy then
      match lookupSocket st toId with
      | some toSock =>
        [Effect.emitToSocket toSock
          (.connectError "INVALID" (some "Invite rejected.") none)]
      | none => []
    else []
  ⟨st, notify ++ [Effect.ack true none], false⟩

/-- The `message` handler.  The guard `!roomId || !senderId || !text?.trim()`
short-circuits left to right; `text?.trim()` is `undefined` on a nullish
`text`, the trimmed string on a string, and a `TypeError` on any other
value.  On the happy path the server stamps its own receipt time `now` and
broadcasts the original text to the room scope. -/
def doMessage (st : ServerState) (_sid : String) (payload : JValue) (now : Nat) :
    StepResult :=
  let roomId := payload.get "roomId"
  let senderId := payload.get "senderId"
  if !roomId.truthy then ⟨st, [], false⟩
  else if !senderId.truthy then ⟨st, [], false⟩
  else
    match payload.get "text" with
    | .null => ⟨st, [], false⟩
    | .undefined => ⟨st, [], false⟩
    | .str s =>
      if jsTrim s = "" then ⟨st, [], false⟩
      else ⟨st, [Effect.emitToRoom roomId (.message roomId senderId s now)], false⟩
    | _ => ⟨st, [], true⟩

/-- The `typing` handler: drop if `roomId` or `userId` is falsy, otherwise
broadcast the booleanised typing flag to the room scope. -/
def doTyping (st : ServerState) (_sid : String) (payload : JValue) : StepResult :=
  let roomId := payload.get "roomId"
  let userId := payload.get "userId"
  if !roomId.truthy || !userId.truthy then ⟨st, [], false⟩
  else
    ⟨st, [Effect.emitToRoom roomId
            (.typing roomId userId (payload.get "isTyping").truthy)], false⟩

/-- The `leave` handler: `if (roomId) endRoom(roomId, 'left')` then
acknowledge `true`.  A truthy non-string `roomId` finds no entry in the
string-keyed `Rooms` table, so `endRoom` no-ops on it. -/
def doLeave (st : ServerState) (_sid : String) (payload : JValue) : StepResult :=
  match payload.get "roomId" with
  | .str s =>
    if s = "" then ⟨st, [Effect.ack true none], false⟩
    else
      let r := endRoom st s "left"
      ⟨r.1, r.2 ++ [Effect.ack true none], false⟩
  | _ => ⟨st, [Effect.ack true none], false⟩

/-- A transport-level event: a socket connecting, a client event arriving on
a socket, or a socket disconnecting. -/
inductive TEvent where
  | connect (sid : String)
  | register (sid : String) (userId : JValue)
  | connectRequest (sid : String) (payload : JValue)
  | accept (sid : String) (payload : JValue)
  | reject (sid : String) (payload : JValue)
  | message (sid : String) (payload : JValue) (now : Nat)
  | typing (sid : String) (payload : JValue)
  | leave (sid : String) (payload : JValue)
  | disconnect (sid : String)

/-- One transport event applied to the server.  Handlers only run for
currently connected sockets; a `disconnect` removes the socket from the
live set and runs the cleanup handler. -/
def step (st : ServerState) (e : TEvent) : StepResult :=
  match e with
  | .connect sid =>
    ⟨{ st with live := if sid ∈ st.live then st.live else sid :: st.live }, [], false⟩
  | .register sid v => if sid ∈ st.live then doRegister st sid v else ⟨st, [], false⟩
  | .connectRequest sid p =>
    if sid ∈ st.live then doConnectRequest st sid p else ⟨st, [], false⟩
  | .accept sid p => if sid ∈ st.live then doAccept st sid p else ⟨st, [], false⟩
  | .reject sid p => if sid ∈ st.live then doReject st sid p else ⟨st, [], false⟩
  | .message sid p now =>
    if sid ∈ st.live then doMessage st sid p now else ⟨st, [], false⟩
  | .typing sid p => if sid ∈ st.live then doTyping st sid p else ⟨st, [], false⟩
  | .leave sid p => if sid ∈ st.live then doLeave st sid p else ⟨st, [], false⟩
  | .disconnect sid =>
    if sid ∈ st.live then
      let r := disconnectCleanup
        { st with live := st.live.filter (fun x => x ≠ sid) } sid
      ⟨r.1, r.2, false⟩
    else ⟨st, [], false⟩

/-- The server's state at start-up: all tables empty, no socket connected. -/
def initState : ServerState := ⟨[], [], [], [], []⟩

/-- Run a sequence of transport events from a state. -/
def run (st : ServerState) (evs : List TEvent) : ServerState :=
  evs.foldl (fun s e => (step s e).state) st

/-! ## Association-list map lemmas -/

theorem mapFind?_insert_self {α : Type} (l : List (String × α)) (k : String)
    (v : α) : mapFind? (mapInsert l k v) k = some v := by
  simp [mapInsert, mapFind?]

theorem mapFind?_erase_self {α : Type} (l : List (String × α)) (k : String) :
    mapFind? (mapErase l k) k = none := by
  induction l with
  | nil => rfl
  | cons p t ih =>
    by_cases hp : p.1 = k
    · simpa [mapErase, hp] using ih
    · simp [mapErase, mapFind?, hp, ih]

theorem mapFind?_erase_ne {α : Type} (l : List (String × α)) (k k' : String)
    (h : k' ≠ k) : mapFind? (mapErase l k) k' = mapFind? l k' := by
  induction l with
  | nil => rfl
  | cons p t ih =>
    by_cases hp : p.1 = k
    · have h1 : ¬ p.1 = k' := fun hk => h (hk ▸ hp)
      have h2 : ¬ k = k' := fun hk => h hk.symm
      simp [mapErase, mapFind?, hp, h1, h2, ih]
    · by_cases hq : p.1 = k'
      · simp [mapErase, mapFind?, hp, hq, h]
      · simp [mapErase, mapFind?, hp, hq, ih]

theorem mapFind?_insert_ne {α : Type} (l : List (String × α)) (k k' : String)
    (v : α) (h : k' ≠ k) : mapFind? (mapInsert l k v) k' = mapFind? l k' := by
  have h1 : ¬ k = k' := fun hk => h hk.symm
  simp only [mapInsert, mapFind?, h1, if_false]
  exact mapFind?_erase_ne l k k' h

theorem countKey_erase_self {α : Type} (l : List (String × α)) (k : String) :
    countKey (mapErase l k) k = 0 := by
  induction l with
  | nil => rfl
  | cons p t ih =>
    by_cases hp : p.1 = k
    · simpa [mapErase, hp] using ih
    · simp [mapErase, countKey, hp, ih]

theorem countKey_insert_self {α : Type} (l : List (String × α)) (k : String)
    (v : α) : countKey (mapInsert l k v) k = 1 := by
  simp [mapInsert, countKey, countKey_erase_self]

/-! ## Freshness of generated room ids -/

theorem length_le_roomKeyBound (l : List (String × RoomMeta)) (k : String)
    (m : RoomMeta) (h : mapFind? l k = some m) : k.length ≤ roomKeyBound l := by
  induction l with
  | nil => simp [mapFind?] at h
  | cons p t ih =>
    by_cases hp : p.1 = k
    · subst hp
      simp [roomKeyBound]
    · simp only [mapFind?, hp, if_false] at h
      exact le_trans (ih h) (le_max_right _ _)

theorem makeId_length (st : ServerState) :
    (makeId st).length = roomKeyBound st.rooms + 1 := by
  simp [makeId, String.length]

/-- The generated room id is fresh: it is longer than every existing room
key, hence absent from the `Rooms` table. -/
theorem makeId_fresh (st : ServerState) :
    mapFind? st.rooms (makeId st) = none := by
  cases h : mapFind? st.rooms (makeId st) with
  | none => rfl
  | some m =>
    have hle := length_le_roomKeyBound st.rooms (makeId st) m h
    rw [makeId_length] at hle
    omega

/-! ## Characterizations of teardown and disconnect cleanup -/

theorem endRoom_eq_none (st : ServerState) (rid reason : String)
    (hm : mapFind? st.rooms rid = none) : endRoom st rid reason = (st, []) := by
  simp [endRoom, hm]

theorem endRoom_eq_some (st : ServerState) (rid reason : String)
    (meta : RoomMeta) (hm : mapFind? st.rooms rid = some meta) :
    endRoom st rid reason =
      ({ st with
          userToRoom := mapErase (mapErase st.userToRoom meta.a) meta.b
          rooms := mapErase st.rooms rid },
        [Effect.emitToRoom (.str rid) (.ended rid reason)]) := by
  simp [endRoom, hm]

theorem endRoom_registry (st : ServerState) (rid reason : String) :
    (endRoom st rid reason).1.socketToUserId = st.socketToUserId ∧
    (endRoom st rid reason).1.userIdToSocket = st.userIdToSocket ∧
    (endRoom st rid reason).1.live = st.live := by
  cases hm : mapFind? st.rooms rid with
  | none => simp [endRoom, hm]
  | some meta => simp [endRoom, hm]

theorem disconnectCleanup_live (st : ServerState) (sid : String) :
    (disconnectCleanup st sid).1.live = st.live := by
  cases h1 : mapFind? st.socketToUserId sid with
  | none => simp [disconnectCleanup, h1]
  | some uid =>
    cases h2 : mapFind? st.userToRoom uid with
    | none => simp [disconnectCleanup, h1, h2]
    | some rid =>
      simp only [disconnectCleanup, h1, h2]
      exact (endRoom_registry _ _ _).2.2

theorem disconnectCleanup_stu_none (st : ServerState) (sid : String) :
    mapFind? (disconnectCleanup st sid).1.socketToUserId sid = none := by
  cases h1 : mapFind? st.socketToUserId sid with
  | none => simp [disconnectCleanup, h1]
  | some uid =>
    cases h2 : mapFind? st.userToRoom uid with
    | none => simp [disconnectCleanup, h1, h2, mapFind?_erase_self]
    | some rid =>
      simp only [disconnectCleanup, h1, h2]
      rw [(endRoom_registry _ _ _).1]
      exact mapFind?_erase_self _ _

theorem endRoom_effects (st : ServerState) (rid reason : String) :
    (endRoom st rid reason).2 = [] ∨
    (endRoom st rid reason).2 =
      [Effect.emitToRoom (.str rid) (.ended rid reason)] := by
  cases hm : mapFind? st.rooms rid with
  | none => left; rw [endRoom_eq_none _ _ _ hm]
  | some meta => right; rw [endRoom_eq_some _ _ _ meta hm]

theorem disconnectCleanup_effects (st : ServerState) (sid : String) :
    (disconnectCleanup st sid).2 = [] ∨
    ∃ rid, (disconnectCleanup st sid).2 =
      [Effect.emitToRoom (.str rid) (.ended rid "disconnect")] := by
  cases h1 : mapFind? st.socketToUserId sid with
  | none => left; simp [disconnectCleanup, h1]
  | some uid =>
    cases h2 : mapFind? st.userToRoom uid with
    | none => left; simp [disconnectCleanup, h1, h2]
    | some rid =>
      simp only [disconnectCleanup, h1, h2]
      rcases endRoom_effects
          { st with
            socketToUserId := mapErase st.socketToUserId sid
            userIdToSocket := mapErase st.userIdToSocket uid }
          rid "disconnect" with he | he
      · left; exact he
      · right; exact ⟨rid, he⟩

/-! ## The Busy Index / Room table consistency invariant -/

/-- The spec's invariant relating the Busy Index and the Room table: every
Busy Index entry points to an existing room containing the identity, and
both members of every room are recorded busy with exactly that room. -/
def RoomInv (st : ServerState) : Prop :=
  (∀ u r, mapFind? st.userToRoom u = some r →
    ∃ m, mapFind? st.rooms r = some m ∧ (m.a = u ∨ m.b = u)) ∧
  (∀ r m, mapFind? st.rooms r = some m →
    mapFind? st.userToRoom m.a = some r ∧ mapFind? st.userToRoom m.b = some r)

/-- A state change that does not touch the Busy Index or the Room table
preserves the invariant. -/
theorem roomInv_tables (st st' : ServerState)
    (hu : st'.userToRoom = st.userToRoom) (hr : st'.rooms = st.rooms)
    (h : RoomInv st) : RoomInv st' := by
  unfold RoomInv at h ⊢
  rw [hu, hr]
  exact h

theorem endRoom_roomInv (st : ServerState) (rid reason : String)
    (h : RoomInv st) : RoomInv (endRoom st rid reason).1 := by
  obtain ⟨F, B⟩ := h
  cases hm : mapFind? st.rooms rid with
  | none => rw [endRoom_eq_none st rid reason hm]; exact ⟨F, B⟩
  | some meta =>
    rw [endRoom_eq_some st rid reason meta hm]
    constructor
    · intro u r hu
      dsimp only at hu ⊢
      by_cases hub : u = meta.b
      · rw [hub, mapFind?_erase_self] at hu
        cases hu
      · rw [mapFind?_erase_ne _ _ _ hub] at hu
        by_cases hua : u = meta.a
        · rw [hua, mapFind?_erase_self] at hu
          cases hu
        · rw [mapFind?_erase_ne _ _ _ hua] at hu
          obtain ⟨m, hfind, hmem⟩ := F u r hu
          have hrne : r ≠ rid := by
            intro hrr
            rw [hrr, hm] at hfind
            injection hfind with hmeq
            rcases hmem with h1 | h1
            · exact hua (by rw [← h1, hmeq])
            · exact hub (by rw [← h1, hmeq])
          refine ⟨m, ?_, hmem⟩
          rw [mapFind?_erase_ne _ _ _ hrne]
          exact hfind
    · intro r m hr
      dsimp only at hr ⊢
      by_cases hrr : r = rid
      · rw [hrr, mapFind?_erase_self] at hr
        cases hr
      · rw [mapFind?_erase_ne _ _ _ hrr] at hr
        obtain ⟨ha, hb⟩ := B r m hr
        obtain ⟨hma, hmb⟩ := B rid meta hm
        have h1 : m.a ≠ meta.a := by
          intro hh
          rw [hh, hma] at ha
          injection ha with ha'
          exact hrr ha'.symm
        have h2 : m.a ≠ meta.b := by
          intro hh
          rw [hh, hmb] at ha
          injection ha with ha'
          exact hrr ha'.symm
        have h3 : m.b ≠ meta.a := by
          intro hh
          rw [hh, hma] at hb
          injection hb with hb'
          exact hrr hb'.symm
        have h4 : m.b ≠ meta.b := by
          intro hh
          rw [hh, hmb] at hb
          injection hb with hb'
          exact hrr hb'.symm
        constructor
        · rw [mapFind?_erase_ne _ _ _ h2, mapFind?_erase_ne _ _ _ h1]
          exact ha
        · rw [mapFind?_erase_ne _ _ _ h4, mapFind?_erase_ne _ _ _ h3]
          exact hb

theorem disconnectCleanup_roomInv (st : ServerState) (sid : String)
    (h : RoomInv st) : RoomInv (disconnectCleanup st sid).1 := by
  cases h1 : mapFind? st.socketToUserId sid with
  | none => simpa [disconnectCleanup, h1] using h
  | some uid =>
    cases h2 : mapFind? st.userToRoom uid with
    | none =>
      simp only [disconnectCleanup, h1, h2]
      exact roomInv_tables st _ rfl rfl h
    | some rid =>
      simp only [disconnectCleanup, h1, h2]
      exact endRoom_roomInv _ rid "disconnect" (roomInv_tables st _ rfl rfl h)

/-- Creating a room for two currently-free identities under a fresh room id
preserves the invariant (the `accept` success path). -/
theorem roomInv_create (st : ServerState) (x y rid : String)
    (hx : mapFind? st.userToRoom x = none)
    (hy : mapFind? st.userToRoom y = none)
    (hfresh : mapFind? st.rooms rid = none) (h : RoomInv st) :
    RoomInv { st with
      rooms := mapInsert st.rooms rid ⟨x, y⟩
      userToRoom := mapInsert (mapInsert st.userToRoom x rid) y rid } := by
  obtain ⟨F, B⟩ := h
  constructor
  · intro u r hu
    dsimp only at hu ⊢
    by_cases huy : u = y
    · rw [huy, mapFind?_insert_self] at hu
      injection hu with hr
      refine ⟨⟨x, y⟩, ?_, Or.inr huy.symm⟩
      rw [← hr, mapFind?_insert_self]
    · rw [mapFind?_insert_ne _ _ _ _ huy] at hu
      by_cases hux : u = x
      · rw [hux, mapFind?_insert_self] at hu
        injection hu with hr
        refine ⟨⟨x, y⟩, ?_, Or.inl hux.symm⟩
        rw [← hr, mapFind?_insert_self]
      · rw [mapFind?_insert_ne _ _ _ _ hux] at hu
        obtain ⟨m, hfind, hmem⟩ := F u r hu
        have hrne : r ≠ rid := by
          intro hrr
          rw [hrr, hfresh] at hfind
          cases hfind
        refine ⟨m, ?_, hmem⟩
        rw [mapFind?_insert_ne _ _ _ _ hrne]
        exact hfind
  · intro r m hr
    dsimp only at hr ⊢
    by_cases hrr : r = rid
    · rw [hrr, mapFind?_insert_self] at hr
      injection hr with hm
      rw [← hm, hrr]
      constructor
      · show mapFind? (mapInsert (mapInsert st.userToRoom x rid) y rid) x = some rid
        by_cases hxy : x = y
        · rw [hxy, mapFind?_insert_self]
        · rw [mapFind?_insert_ne _ _ _ _ hxy, mapFind?_insert_self]
      · exact mapFind?_insert_self _ _ _
    · rw [mapFind?_insert_ne _ _ _ _ hrr] at hr
      obtain ⟨ha, hb⟩ := B r m hr
      have h1 : m.a ≠ x := by
        intro hh
        rw [hh, hx] at ha
        cases ha
      have h2 : m.a ≠ y := by
        intro hh
        rw [hh, hy] at ha
        cases ha
      have h3 : m.b ≠ x := by
        intro hh
        rw [hh, hx] at hb
        cases hb
      have h4 : m.b ≠ y := by
        intro hh
        rw [hh, hy] at hb
        cases hb
      constructor
      · rw [mapFind?_insert_ne _ _ _ _ h2, mapFind?_insert_ne _ _ _ _ h1]
        exact ha
      · rw [mapFind?_insert_ne _ _ _ _ h4, mapFind?_insert_ne _ _ _ _ h3]
        exact hb

theorem not_busy_none (st : ServerState) (x : String)
    (h : isBusy st (.str x) = false) : mapFind? st.userToRoom x = none := by
  cases hm : mapFind? st.userToRoom x with
  | none => rfl
  | some r =>
    exfalso
    rw [show isBusy st (.str x) = (mapFind? st.userToRoom x).isSome from rfl,
      hm] at h
    cases h

theorem doConnectRequest_state (st : ServerState) (sid : String) (p : JValue) :
    (doConnectRequest st sid p).state = st := by
  simp only [doConnectRequest]
  repeat' split
  all_goals rfl

theorem doReject_state (st : ServerState) (sid : String) (p : JValue) :
    (doReject st sid p).state = st := by
  rfl

theorem doMessage_state (st : ServerState) (sid : String) (p : JValue)
    (now : Nat) : (doMessage st sid p now).state = st := by
  simp only [doMessage]
  repeat' split
  all_goals rfl

theorem doTyping_state (st : ServerState) (sid : String) (p : JValue) :
    (doTyping st sid p).state = st := by
  simp only [doTyping]
  repeat' split
  all_goals rfl

theorem doLeave_roomInv (st : ServerState) (sid : String) (p : JValue)
    (h : RoomInv st) : RoomInv (doLeave st sid p).state := by
  simp only [doLeave]
  split
  · rename_i s heq
    split
    · exact h
    · exact endRoom_roomInv st s "left" h
  · exact h

theorem doRegister_roomInv (st : ServerState) (sid : String) (v : JValue)
    (h : RoomInv st) : RoomInv (doRegister st sid v).state := by
  simp only [doRegister]
  split
  · split
    · exact h
    · split
      · rename_i old hold
        split
        · have hc := disconnectCleanup_roomInv
            { st with live := st.live.filter (fun x => x ≠ old) } old h
          exact hc
        · exact h
      · exact h
  · exact h

theorem doAccept_roomInv (st : ServerState) (sid : String) (p : JValue)
    (h : RoomInv st) : RoomInv (doAccept st sid p).state := by
  simp only [doAccept]
  split
  · exact h
  · split
    · exact h
    · rename_i hval hbusy
      split
      · rename_i x y hf hg
        split
        · rename_i aSock bSock hla hlb
          rw [hf, hg] at hbusy
          simp only [Bool.or_eq_true, not_or, Bool.not_eq_true] at hbusy
          exact roomInv_create st x y (makeId st)
            (not_busy_none st x hbusy.1) (not_busy_none st y hbusy.2)
            (makeId_fresh st) h
        · exact h
      · exact h

theorem step_roomInv (st : ServerState) (e : TEvent) (h : RoomInv st) :
    RoomInv (step st e).state := by
  cases e with
  | connect sid => exact roomInv_tables _ st rfl rfl h
  | register sid v =>
    simp only [step]
    split
    · exact doRegister_roomInv st sid v h
    · exact h
  | connectRequest sid p =>
    simp only [step]
    split
    · rw [doConnectRequest_state]
      exact h
    · exact h
  | accept sid p =>
    simp only [step]
    split
    · exact doAccept_roomInv st sid p h
    · exact h
  | reject sid p =>
    simp only [step]
    split
    · rw [doReject_state]
      exact h
    · exact h
  | message sid p now =>
    simp only [step]
    split
    · rw [doMessage_state]
      exact h
    · exact h
  | typing sid p =>
    simp only [step]
    split
    · rw [doTyping_state]
      exact h
    · exact h
  | leave sid p =>
    simp only [step]
    split
    · exact doLeave_roomInv st sid p h
    · exact h
  | disconnect sid =>
    simp only [step]
    split
    · exact disconnectCleanup_roomInv _ sid (roomInv_tables _ st rfl rfl h)
    · exact h

theorem run_roomInv (evs : List TEvent) (st : ServerState) (h : RoomInv st) :
    RoomInv (run st evs) := by
  induction evs generalizing st with
  | nil => exact h
  | cons e t ih => exact ih (step st e).state (step_roomInv st e h)

theorem initState_roomInv : RoomInv initState := by
  constructor
  · intro u r hu
    cases hu
  · intro r m hr
    cases hr

/-! ## Claim theorems -/

/-- Claim C3: in every state reachable by any sequence of events, every
identity appears in the Busy Index for at most one RoomId, that RoomId
names an existing Room whose member pair contains the identity, and
conversely while a Room exists both of its members are mapped to it in the
Busy Index (and, the Busy Index being functional, to no other Room). -/
theorem busyIndex_room_consistency (evs : List TEvent) :
    (∀ u r r', mapFind? (run initState evs).userToRoom u = some r →
      mapFind? (run initState evs).userToRoom u = some r' → r = r') ∧
    (∀ u r, mapFind? (run initState evs).userToRoom u = some r →
      ∃ m, mapFind? (run initState evs).rooms r = some m ∧
        (m.a = u ∨ m.b = u)) ∧
    (∀ r m, mapFind? (run initState evs).rooms r = some m →
      mapFind? (run initState evs).userToRoom m.a = some r ∧
      mapFind? (run initState evs).userToRoom m.b = some r) := by
  have h := run_roomInv evs initState initState_roomInv
  refine ⟨?_, h.1, h.2⟩
  intro u r r' h1 h2
  rw [h1] at h2
  exact Option.some.inj h2

/-- The event trace used to witness the reachable-state invariant: two
clients register and one accepts an invite, creating a room. -/
def c3trace : List TEvent :=
  [.connect "s1", .connect "s2",
   .register "s1" (.str "alice"), .register "s2" (.str "bob"),
   .accept "s2" (.obj [("fromId", .str "bob"), ("toId", .str "alice"),
     ("inviteId", .str "x")])]

/-- Witness for the C3 invariant on a concrete reachable state. -/
theorem busyIndex_room_consistency_witness :
    ∃ m, mapFind? (run initState c3trace).rooms "r" = some m ∧
      (m.a = "bob" ∨ m.b = "bob") :=
  (busyIndex_room_consistency c3trace).2.1 "bob" "r" (by decide)

/-- A reachable state in which `bob` and `carol` share a room (so `bob` is
busy) and `alice` is registered and free. -/
def c1state : ServerState :=
  run initState
    [.connect "s1", .connect "s2", .connect "s3",
     .register "s1" (.str "alice"), .register "s2" (.str "bob"),
     .register "s3" (.str "carol"),
     .accept "s3" (.obj [("fromId", .str "carol"), ("toId", .str "bob"),
       ("inviteId", .str "x")])]

/-- Claim C1 is violated by the code: the target-busy branch of
`connect-request` does not return, so with `bob` busy a
`connect-request(alice, bob)` emits the `BUSY` error, then still emits the
`incoming-invite` to `bob`'s connection and acknowledges `ok = true` to the
initiator. -/
theorem connectRequest_target_busy_fallthrough :
    isBusy c1state (.str "bob") = true ∧
    (doConnectRequest c1state "s1"
        (.obj [("fromId", .str "alice"), ("toId", .str "bob")])).effects =
      [Effect.emitToSocket "s1" (.connectError "BUSY" none (some (.str "bob"))),
       Effect.ack false (some "Target busy"),
       Effect.emitToSocket "s2"
         (.incomingInvite (.str "alice") (.str "bob") (makeId c1state)),
       Effect.ack true none] :=
  ⟨rfl, rfl⟩

/-- The state after one socket registers `alice` and then registers `bob`
without disconnecting. -/
def c2state : ServerState :=
  run initState
    [.connect "s1", .register "s1" (.str "alice"), .register "s1" (.str "bob")]

/-- Claim C2 is violated by the code: the `register` handler never clears
the connection's previous identity binding, so after one socket registers
`alice` and then `bob`, `alice` still maps to the socket while the socket
maps back to `bob`, breaking registry symmetry. -/
theorem register_symmetry_broken :
    mapFind? c2state.userIdToSocket "alice" = some "s1" ∧
    mapFind? c2state.socketToUserId "s1" = some "bob" ∧
    mapFind? c2state.socketToUserId "s1" ≠ some "alice" :=
  ⟨rfl, rfl, by decide⟩

/-- Claim C8 is violated by the code: the `message` handler evaluates
`text?.trim()` on any truthy `roomId`/`senderId`, which raises a
`TypeError` when `text` is a truthy non-string such as the number `1`, so
the handler is not total over arbitrary payloads. -/
theorem message_throws_on_nonstring_text :
    (doMessage initState "s1"
        (.obj [("roomId", .str "room0"), ("senderId", .str "bob"),
               ("text", .num 1)]) 0).threw = true :=
  rfl

/-- On a valid registration the effect trace is some prefix of forcible
closes and room-teardown emits, followed by the `registered` emission and
the positive acknowledgment. -/
theorem doRegister_effects_shape (st : ServerState) (sid s : String)
    (hs : ¬ s = "") :
    ∃ pre, (doRegister st sid (.str s)).effects =
        pre ++ [Effect.emitToSocket sid (.registered s), Effect.ack true none] ∧
      ∀ e ∈ pre, (∃ c, e = Effect.closeSocket c) ∨
        ∃ room ev, e = Effect.emitToRoom room ev := by
  simp only [doRegister, if_neg hs]
  split
  · rename_i old hold
    split
    · refine ⟨Effect.closeSocket old ::
        (disconnectCleanup
          { st with live := st.live.filter (fun x => x ≠ old) } old).2, rfl, ?_⟩
      intro e he
      rcases List.mem_cons.mp he with he1 | he2
      · exact Or.inl ⟨old, he1⟩
      · rcases disconnectCleanup_effects
            { st with live := st.live.filter (fun x => x ≠ old) } old with hc | ⟨rid, hc⟩
        · rw [hc] at he2
          cases he2
        · rw [hc] at he2
          rcases List.mem_singleton.mp he2 with rfl
          exact Or.inr ⟨_, _, rfl⟩
    · exact ⟨[], rfl, by intro e he; cases he⟩
  · exact ⟨[], rfl, by intro e he; cases he⟩

/-- `register` acknowledges failure exactly on a falsy or non-string
identity. -/
theorem doRegister_ack_false_iff (st : ServerState) (sid : String)
    (w : JValue) :
    Effect.ack false (some "Invalid userId") ∈ (doRegister st sid w).effects ↔
      ¬ ∃ t, w = JValue.str t ∧ t ≠ "" := by
  cases w with
  | str s =>
    by_cases hs : s = ""
    · subst hs
      simp [doRegister]
    · constructor
      · intro hmem
        exfalso
        obtain ⟨pre, heq, hpre⟩ := doRegister_effects_shape st sid s hs
        rw [heq] at hmem
        rcases List.mem_append.mp hmem with h1 | h2
        · rcases hpre _ h1 with ⟨c, hc⟩ | ⟨room, ev, hc⟩ <;> cases hc
        · rcases List.mem_cons.mp h2 with h3 | h3
          · cases h3
          · rcases List.mem_singleton.mp h3
      · intro hcon
        exact absurd ⟨s, rfl, hs⟩ hcon
  | null => simp [doRegister]
  | undefined => simp [doRegister]
  | num n => simp [doRegister]
  | bool b => simp [doRegister]
  | obj fs => simp [doRegister]

/-- Claim C4: `register(identity, connection)` fails exactly when the
identity is empty or not a string; on success with the identity previously
bound to a different live connection `c1`, the first effect is the forcible
close of `c1`, the registration is acknowledged positively afterwards, both
registry mappings end up pointing at the new connection, and `c1` retains
no reverse-registry entry and is no longer live, so no later event arriving
on `c1` is attributed to the identity. -/
theorem register_eviction (st : ServerState) (sid s c1 : String)
    (hs : ¬ s = "") (hold : mapFind? st.userIdToSocket s = some c1)
    (hne : c1 ≠ sid) (hlive : c1 ∈ st.live) :
    (∀ (st' : ServerState) (sid' : String) (w : JValue),
      Effect.ack false (some "Invalid userId") ∈ (doRegister st' sid' w).effects ↔
        ¬ ∃ t, w = JValue.str t ∧ t ≠ "") ∧
    (doRegister st sid (.str s)).effects.head? =
      some (Effect.closeSocket c1) ∧
    Effect.ack true none ∈ (doRegister st sid (.str s)).effects ∧
    mapFind? (doRegister st sid (.str s)).state.userIdToSocket s = some sid ∧
    mapFind? (doRegister st sid (.str s)).state.socketToUserId sid = some s ∧
    mapFind? (doRegister st sid (.str s)).state.socketToUserId c1 = none ∧
    c1 ∉ (doRegister st sid (.str s)).state.live := by
  have hcond : c1 ≠ sid ∧ c1 ∈ st.live := ⟨hne, hlive⟩
  have hreg : doRegister st sid (.str s) =
      ⟨{ (disconnectCleanup
            { st with live := st.live.filter (fun x => x ≠ c1) } c1).1 with
          userIdToSocket := mapInsert (disconnectCleanup
            { st with live := st.live.filter (fun x => x ≠ c1) } c1).1.userIdToSocket s sid
          socketToUserId := mapInsert (disconnectCleanup
            { st with live := st.live.filter (fun x => x ≠ c1) } c1).1.socketToUserId sid s },
        (Effect.closeSocket c1 ::
          (disconnectCleanup
            { st with live := st.live.filter (fun x => x ≠ c1) } c1).2) ++
          [Effect.emitToSocket sid (.registered s), Effect.ack true none],
        false⟩ := by
    simp only [doRegister, if_neg hs, hold, if_pos hcond]
  refine ⟨doRegister_ack_false_iff, ?_, ?_, ?_, ?_, ?_, ?_⟩
  · rw [hreg]
    rfl
  · rw [hreg]
    simp
  · rw [hreg]
    exact mapFind?_insert_self _ _ _
  · rw [hreg]
    exact mapFind?_insert_self _ _ _
  · rw [hreg]
    show mapFind? (mapInsert _ sid s) c1 = none
    rw [mapFind?_insert_ne _ _ _ _ hne]
    exact disconnectCleanup_stu_none _ _
  · rw [hreg]
    show c1 ∉ (disconnectCleanup
      { st with live := st.live.filter (fun x => x ≠ c1) } c1).1.live
    rw [disconnectCleanup_live]
    simp

/-- A state with `alice` registered on live socket `s1` and a second
connected socket `s2`. -/
def c4state : ServerState :=
  { userIdToSocket := [("alice", "s1")]
    socketToUserId := [("s1", "alice")]
    userToRoom := []
    rooms := []
    live := ["s1", "s2"] }

/-- Witness for the C4 eviction behaviour at a concrete state. -/
theorem register_eviction_witness :
    mapFind? (doRegister c4state "s2" (.str "alice")).state.userIdToSocket
      "alice" = some "s2" ∧
    mapFind? (doRegister c4state "s2" (.str "alice")).state.socketToUserId
      "s1" = none ∧
    (doRegister c4state "s2" (.str "alice")).effects.head? =
      some (Effect.closeSocket "s1") :=
  ⟨(register_eviction c4state "s2" "alice" "s1" (by decide) rfl (by decide)
      (by decide)).2.2.2.1,
   (register_eviction c4state "s2" "alice" "s1" (by decide) rfl (by decide)
      (by decide)).2.2.2.2.2.1,
   (register_eviction c4state "s2" "alice" "s1" (by decide) rfl (by decide)
      (by decide)).2.1⟩

/-- Claim C5: with `alice` and `bob` sharing an active room, a disconnect
of `alice`'s connection removes both registry mappings for `alice`,
produces exactly one `ended{reason: "disconnect"}` broadcast to the room
scope, removes both members from the Busy Index and deletes the room; a
subsequent `connect-request` from `bob` to a registered, non-busy `carol`
then emits the invite and acknowledges success. -/
theorem disconnect_teardown_frees_parties
    (st : ServerState) (alice bob carol sa sb sc r : String)
    (hroom : mapFind? st.rooms r = some ⟨alice, bob⟩)
    (hbusyA : mapFind? st.userToRoom alice = some r)
    (hstuA : mapFind? st.socketToUserId sa = some alice)
    (hliveA : sa ∈ st.live) (hliveB : sb ∈ st.live) (hsbne : sb ≠ sa)
    (hcsock : mapFind? st.userIdToSocket carol = some sc)
    (hcfree : mapFind? st.userToRoom carol = none)
    (hab : alice ≠ bob) (hbne : bob ≠ "") (hcne : carol ≠ "")
    (hbc : bob ≠ carol) (hca : carol ≠ alice) (hcb : carol ≠ bob) :
    mapFind? (step st (.disconnect sa)).state.userIdToSocket alice = none ∧
    mapFind? (step st (.disconnect sa)).state.socketToUserId sa = none ∧
    (step st (.disconnect sa)).effects =
      [Effect.emitToRoom (.str r) (.ended r "disconnect")] ∧
    mapFind? (step st (.disconnect sa)).state.userToRoom alice = none ∧
    mapFind? (step st (.disconnect sa)).state.userToRoom bob = none ∧
    mapFind? (step st (.disconnect sa)).state.rooms r = none ∧
    (step (step st (.disconnect sa)).state
        (.connectRequest sb
          (.obj [("fromId", .str bob), ("toId", .str carol)]))).effects =
      [Effect.emitToSocket sc
        (.incomingInvite (.str bob) (.str carol)
          (makeId (step st (.disconnect sa)).state)),
       Effect.ack true none] := by
  have hd : step st (.disconnect sa) =
      ⟨⟨mapErase st.userIdToSocket alice, mapErase st.socketToUserId sa,
        mapErase (mapErase st.userToRoom alice) bob, mapErase st.rooms r,
        st.live.filter (fun x => x ≠ sa)⟩,
        [Effect.emitToRoom (.str r) (.ended r "disconnect")], false⟩ := by
    simp only [step, if_pos hliveA, disconnectCleanup]
    simp [hstuA, hbusyA, endRoom, hroom]
  rw [hd]
  refine ⟨mapFind?_erase_self _ _, mapFind?_erase_self _ _, rfl, ?_,
    mapFind?_erase_self _ _, mapFind?_erase_self _ _, ?_⟩
  · show mapFind? (mapErase (mapErase st.userToRoom alice) bob) alice = none
    rw [mapFind?_erase_ne _ _ _ hab]
    exact mapFind?_erase_self _ _
  · have hliveB2 : sb ∈ (st.live.filter (fun x => x ≠ sa)) := by
      simp [List.mem_filter, hliveB, hsbne]
    have hfrom : (JValue.obj [("fromId", .str bob), ("toId", .str carol)]).get
        "fromId" = .str bob := rfl
    have hto : (JValue.obj [("fromId", .str bob), ("toId", .str carol)]).get
        "toId" = .str carol := rfl
    have hval : (!(JValue.str bob).truthy || !(JValue.str carol).truthy ||
        jsEq (.str bob) (.str carol)) = false := by
      simp [JValue.truthy, jsEq, hbne, hcne, hbc]
    have hbobfree : mapFind?
        (mapErase (mapErase st.userToRoom alice) bob) bob = none :=
      mapFind?_erase_self _ _
    have hcarolfree : mapFind?
        (mapErase (mapErase st.userToRoom alice) bob) carol = none := by
      rw [mapFind?_erase_ne _ _ _ hcb, mapFind?_erase_ne _ _ _ hca]
      exact hcfree
    have hcarolsock : mapFind? (mapErase st.userIdToSocket alice) carol =
        some sc := by
      rw [mapFind?_erase_ne _ _ _ hca]
      exact hcsock
    simp only [step, if_pos hliveB2, doConnectRequest, hfrom, hto, hval,
      Bool.false_eq_true, if_false]
    rw [show isBusy
        ⟨mapErase st.userIdToSocket alice, mapErase st.socketToUserId sa,
          mapErase (mapErase st.userToRoom alice) bob, mapErase st.rooms r,
          st.live.filter (fun x => x ≠ sa)⟩ (.str bob) =
        (mapFind? (mapErase (mapErase st.userToRoom alice) bob) bob).isSome
      from rfl, hbobfree]
    rw [show lookupSocket
        ⟨mapErase st.userIdToSocket alice, mapErase st.socketToUserId sa,
          mapErase (mapErase st.userToRoom alice) bob, mapErase st.rooms r,
          st.live.filter (fun x => x ≠ sa)⟩ (.str carol) =
        mapFind? (mapErase st.userIdToSocket alice) carol from rfl, hcarolsock]
    rw [show isBusy
        ⟨mapErase st.userIdToSocket alice, mapErase st.socketToUserId sa,
          mapErase (mapErase st.userToRoom alice) bob, mapErase st.rooms r,
          st.live.filter (fun x => x ≠ sa)⟩ (.str carol) =
        (mapFind? (mapErase (mapErase st.userToRoom alice) bob) carol).isSome
      from rfl, hcarolfree]
    simp

/-- A concrete state for the C5 witness: `alice`/`bob` in a room, `carol`
registered and free. -/
def c5state : ServerState :=
  { userIdToSocket := [("alice", "s1"), ("bob", "s2"), ("carol", "s3")]
    socketToUserId := [("s1", "alice"), ("s2", "bob"), ("s3", "carol")]
    userToRoom := [("alice", "room0"), ("bob", "room0")]
    rooms := [("room0", ⟨"alice", "bob"⟩)]
    live := ["s1", "s2", "s3"] }

/-- Witness for C5 at a concrete state. -/
theorem disconnect_teardown_frees_parties_witness :
    (step c5state (.disconnect "s1")).effects =
      [Effect.emitToRoom (.str "room0") (.ended "room0" "disconnect")] ∧
    (step (step c5state (.disconnect "s1")).state
        (.connectRequest "s2"
          (.obj [("fromId", .str "bob"), ("toId", .str "carol")]))).effects =
      [Effect.emitToSocket "s3"
        (.incomingInvite (.str "bob") (.str "carol")
          (makeId (step c5state (.disconnect "s1")).state)),
       Effect.ack true none] :=
  ⟨(disconnect_teardown_frees_parties c5state "alice" "bob" "carol" "s1" "s2"
      "s3" "room0" rfl rfl rfl (by decide) (by decide) (by decide) rfl rfl
      (by decide) (by decide) (by decide) (by decide) (by decide)
      (by decide)).2.2.1,
   (disconnect_teardown_frees_parties c5state "alice" "bob" "carol" "s1" "s2"
      "s3" "room0" rfl rfl rfl (by decide) (by decide) (by decide) rfl rfl
      (by decide) (by decide) (by decide) (by decide) (by decide)
      (by decide)).2.2.2.2.2.2⟩

/-- Number of `ended` broadcasts in an effect trace. -/
def endedCount (effs : List Effect) : Nat :=
  match effs with
  | [] => 0
  | Effect.emitToRoom _ (SEvent.ended _ _) :: t => 1 + endedCount t
  | _ :: t => endedCount t

/-- Claim C6: room teardown is idempotent — `endRoom` on a missing room
(whether reached via `leave` or via disconnect) changes nothing and emits
nothing, and consequently a second `leave` for an already-torn-down room
leaves the state unchanged, acknowledges `true` and adds no second `ended`
broadcast. -/
theorem teardown_idempotent (st st' : ServerState) (sid1 sid2 r r' : String)
    (m : RoomMeta) (habs : mapFind? st.rooms r = none)
    (hex : mapFind? st'.rooms r' = some m) (hr : ¬ r' = "") :
    endRoom st r "left" = (st, []) ∧
    endRoom st r "disconnect" = (st, []) ∧
    endedCount (doLeave st' sid1
      (.obj [("roomId", .str r'), ("userId", .null)])).effects = 1 ∧
    doLeave (doLeave st' sid1
        (.obj [("roomId", .str r'), ("userId", .null)])).state sid2
        (.obj [("roomId", .str r'), ("userId", .null)]) =
      ⟨(doLeave st' sid1
          (.obj [("roomId", .str r'), ("userId", .null)])).state,
        [Effect.ack true none], false⟩ := by
  have hget : (JValue.obj [("roomId", .str r'), ("userId", .null)]).get
      "roomId" = .str r' := rfl
  have hl1 : doLeave st' sid1 (.obj [("roomId", .str r'), ("userId", .null)]) =
      ⟨{ st' with
          userToRoom := mapErase (mapErase st'.userToRoom m.a) m.b
          rooms := mapErase st'.rooms r' },
        [Effect.emitToRoom (.str r') (.ended r' "left"), Effect.ack true none],
        false⟩ := by
    simp only [doLeave, hget, if_neg hr, endRoom_eq_some st' r' "left" m hex]
    rfl
  refine ⟨endRoom_eq_none st r "left" habs,
    endRoom_eq_none st r "disconnect" habs, ?_, ?_⟩
  · rw [hl1]
    rfl
  · rw [hl1]
    have habs2 : mapFind? (mapErase st'.rooms r') r' = none :=
      mapFind?_erase_self _ _
    simp only [doLeave, hget, if_neg hr]
    rw [show endRoom
        { st' with
          userToRoom := mapErase (mapErase st'.userToRoom m.a) m.b
          rooms := mapErase st'.rooms r' } r' "left" =
      ({ st' with
          userToRoom := mapErase (mapErase st'.userToRoom m.a) m.b
          rooms := mapErase st'.rooms r' }, []) from
      endRoom_eq_none _ _ _ habs2]
    rfl

/-- Witness for C6 at a concrete state: the second `leave` adds no second
`ended` broadcast. -/
theorem teardown_idempotent_witness :
    endedCount (doLeave c5state "s3"
      (.obj [("roomId", .str "room0"), ("userId", .null)])).effects = 1 ∧
    doLeave (doLeave c5state "s3"
        (.obj [("roomId", .str "room0"), ("userId", .null)])).state "s3"
        (.obj [("roomId", .str "room0"), ("userId", .null)]) =
      ⟨(doLeave c5state "s3"
          (.obj [("roomId", .str "room0"), ("userId", .null)])).state,
        [Effect.ack true none], false⟩ :=
  ⟨(teardown_idempotent initState c5state "s3" "s3" "nope" "room0"
      ⟨"alice", "bob"⟩ rfl rfl (by decide)).2.2.1,
   (teardown_idempotent initState c5state "s3" "s3" "nope" "room0"
      ⟨"alice", "bob"⟩ rfl rfl (by decide)).2.2.2⟩

/-- The payload of a `message` event whose fields have the declared types,
optionally carrying a client-supplied timestamp. -/
def mkMsgPayload (roomId senderId text : String) (clientTs : Option Int) :
    JValue :=
  .obj ([("roomId", .str roomId), ("senderId", .str senderId),
    ("text", .str text)] ++
    (match clientTs with
     | some t => [("ts", JValue.num t)]
     | none => []))

/-- Claim C7: `message(roomId, senderId, text)` mutates no state and never
throws on string-typed fields; it broadcasts nothing exactly when `roomId`
is falsy, `senderId` is falsy, or `text` trims to empty; otherwise it
broadcasts the message with a server-assigned timestamp taken at receipt,
ignoring any client-supplied `ts` field. -/
theorem message_validation_and_server_timestamp (st : ServerState)
    (sid : String) (roomId senderId text : String) (clientTs : Option Int)
    (now : Nat) :
    (doMessage st sid (mkMsgPayload roomId senderId text clientTs) now).state
      = st ∧
    (doMessage st sid (mkMsgPayload roomId senderId text clientTs) now).threw
      = false ∧
    ((doMessage st sid (mkMsgPayload roomId senderId text clientTs) now).effects
        = [] ↔ (roomId = "" ∨ senderId = "" ∨ jsTrim text = "")) ∧
    (¬ (roomId = "" ∨ senderId = "" ∨ jsTrim text = "") →
      (doMessage st sid (mkMsgPayload roomId senderId text clientTs) now).effects
        = [Effect.emitToRoom (.str roomId)
            (.message (.str roomId) (.str senderId) text now)]) := by
  have hroom : (mkMsgPayload roomId senderId text clientTs).get "roomId" =
      .str roomId := by
    cases clientTs <;> rfl
  have hsender : (mkMsgPayload roomId senderId text clientTs).get "senderId" =
      .str senderId := by
    cases clientTs <;> rfl
  have htext : (mkMsgPayload roomId senderId text clientTs).get "text" =
      .str text := by
    cases clientTs <;> rfl
  by_cases h1 : roomId = ""
  · subst h1
    have hm : doMessage st sid (mkMsgPayload "" senderId text clientTs) now =
        ⟨st, [], false⟩ := by
      simp [doMessage, hroom, JValue.truthy]
    rw [hm]
    simp
  · have hb1 : (JValue.str roomId).truthy = true := by
      simp [JValue.truthy, h1]
    by_cases h2 : senderId = ""
    · subst h2
      have hm : doMessage st sid (mkMsgPayload roomId "" text clientTs) now =
          ⟨st, [], false⟩ := by
        simp [doMessage, hsender, hb1, JValue.truthy]
      rw [hm]
      simp [h1]
    · have hb2 : (JValue.str senderId).truthy = true := by
        simp [JValue.truthy, h2]
      by_cases h3 : jsTrim text = ""
      · have hm : doMessage st sid
            (mkMsgPayload roomId senderId text clientTs) now =
            ⟨st, [], false⟩ := by
          simp [doMessage, hroom, hsender, htext, hb1, hb2, h3]
        rw [hm]
        simp [h1, h2, h3]
      · have hm : doMessage st sid
            (mkMsgPayload roomId senderId text clientTs) now =
            ⟨st, [Effect.emitToRoom (.str roomId)
              (.message (.str roomId) (.str senderId) text now)], false⟩ := by
          simp [doMessage, hroom, hsender, htext, hb1, hb2, h3]
        rw [hm]
        simp [h1, h2, h3]

/-- Witness for C7: a well-formed message is broadcast with the server
timestamp even when the client supplied its own `ts`. -/
theorem message_validation_and_server_timestamp_witness :
    (doMessage c5state "s1" (mkMsgPayload "room0" "alice" "hi" (some 999))
        42).effects =
      [Effect.emitToRoom (.str "room0")
        (.message (.str "room0") (.str "alice") "hi" 42)] :=
  (message_validation_and_server_timestamp c5state "s1" "room0" "alice" "hi"
    (some 999) 42).2.2.2 (by decide)

/-- Claim C9: `accept` validates neither an outstanding invite nor that the
two ids differ — a registered, non-busy identity that accepts from itself
gets a room whose two member fields are both that identity, is acknowledged
positively, and is entered once in the Busy Index for that room. -/
theorem accept_self_invite_creates_self_room (st : ServerState)
    (sid sx x : String) (iv : JValue) (hx : ¬ x = "")
    (hfree : mapFind? st.userToRoom x = none)
    (hsock : mapFind? st.userIdToSocket x = some sx) :
    Effect.ack true none ∈ (doAccept st sid
      (.obj [("fromId", .str x), ("toId", .str x), ("inviteId", iv)])).effects ∧
    mapFind? (doAccept st sid
      (.obj [("fromId", .str x), ("toId", .str x), ("inviteId", iv)])).state.rooms
      (makeId st) = some ⟨x, x⟩ ∧
    mapFind? (doAccept st sid
      (.obj [("fromId", .str x), ("toId", .str x), ("inviteId", iv)])).state.userToRoom
      x = some (makeId st) ∧
    countKey (doAccept st sid
      (.obj [("fromId", .str x), ("toId", .str x), ("inviteId", iv)])).state.userToRoom
      x = 1 := by
  have hfrom : (JValue.obj [("fromId", .str x), ("toId", .str x),
      ("inviteId", iv)]).get "fromId" = .str x := rfl
  have hto : (JValue.obj [("fromId", .str x), ("toId", .str x),
      ("inviteId", iv)]).get "toId" = .str x := rfl
  have hval : (!(JValue.str x).truthy || !(JValue.str x).truthy) = false := by
    simp [JValue.truthy, hx]
  have hbusy : (isBusy st (.str x) || isBusy st (.str x)) = false := by
    rw [show isBusy st (.str x) = (mapFind? st.userToRoom x).isSome from rfl,
      hfree]
    rfl
  have ha : doAccept st sid
      (.obj [("fromId", .str x), ("toId", .str x), ("inviteId", iv)]) =
      ⟨{ st with
          rooms := mapInsert st.rooms (makeId st) ⟨x, x⟩
          userToRoom := mapInsert (mapInsert st.userToRoom x (makeId st)) x
            (makeId st) },
        ((if sx ∈ st.live then [Effect.joinRoom sx (makeId st)] else []) ++
         (if sx ∈ st.live then [Effect.joinRoom sx (makeId st)] else []) ++
         [Effect.emitToRoom (.str (makeId st))
            (.connected (makeId st) x x),
          Effect.ack true none]), false⟩ := by
    simp only [doAccept, hfrom, hto, hval, hbusy, Bool.false_eq_true,
      if_false, hsock]
  rw [ha]
  refine ⟨by simp, mapFind?_insert_self _ _ _, mapFind?_insert_self _ _ _,
    countKey_insert_self _ _ _⟩

/-- A concrete state for the C9 witness: `dave` registered and free. -/
def c9state : ServerState :=
  { userIdToSocket := [("dave", "s7")]
    socketToUserId := [("s7", "dave")]
    userToRoom := []
    rooms := []
    live := ["s7"] }

/-- Witness for C9 at a concrete state. -/
theorem accept_self_invite_creates_self_room_witness :
    mapFind? (doAccept c9state "s7"
      (.obj [("fromId", .str "dave"), ("toId", .str "dave"),
        ("inviteId", .str "x")])).state.rooms
      (makeId c9state) = some ⟨"dave", "dave"⟩ ∧
    countKey (doAccept c9state "s7"
      (.obj [("fromId", .str "dave"), ("toId", .str "dave"),
        ("inviteId", .str "x")])).state.userToRoom "dave" = 1 :=
  ⟨(accept_self_invite_creates_self_room c9state "s7" "s7" "dave" (.str "x")
      (by decide) rfl rfl).2.1,
   (accept_self_invite_creates_self_room c9state "s7" "s7" "dave" (.str "x")
      (by decide) rfl rfl).2.2.2⟩

/-- Claim C10: `leave` performs no membership check — for any existing room,
a `leave` carrying that roomId from any connection tears the room down
(`ended` broadcast, Busy Index cleanup, room deletion) and is acknowledged
`ok = true`, and the result is independent of the `userId` field and of the
sending connection. -/
theorem leave_no_membership_check (st : ServerState) (sid sid' r : String)
    (m : RoomMeta) (uv uv' : JValue) (hr : ¬ r = "")
    (hex : mapFind? st.rooms r = some m) :
    (doLeave st sid (.obj [("roomId", .str r), ("userId", uv)])).effects =
      [Effect.emitToRoom (.str r) (.ended r "left"), Effect.ack true none] ∧
    mapFind? (doLeave st sid
      (.obj [("roomId", .str r), ("userId", uv)])).state.rooms r = none ∧
    mapFind? (doLeave st sid
      (.obj [("roomId", .str r), ("userId", uv)])).state.userToRoom m.a
      = none ∧
    mapFind? (doLeave st sid
      (.obj [("roomId", .str r), ("userId", uv)])).state.userToRoom m.b
      = none ∧
    doLeave st sid (.obj [("roomId", .str r), ("userId", uv)]) =
      doLeave st sid' (.obj [("roomId", .str r), ("userId", uv')]) := by
  have hl : ∀ (s : String) (v : JValue),
      doLeave st s (.obj [("roomId", .str r), ("userId", v)]) =
      ⟨{ st with
          userToRoom := mapErase (mapErase st.userToRoom m.a) m.b
          rooms := mapErase st.rooms r },
        [Effect.emitToRoom (.str r) (.ended r "left"), Effect.ack true none],
        false⟩ := by
    intro s v
    have hget : (JValue.obj [("roomId", .str r), ("userId", v)]).get
        "roomId" = .str r := rfl
    simp only [doLeave, hget, if_neg hr, endRoom_eq_some st r "left" m hex]
    rfl
  rw [hl sid uv, hl sid' uv']
  refine ⟨rfl, mapFind?_erase_self _ _, ?_, mapFind?_erase_self _ _, rfl⟩
  by_cases hab : m.a = m.b
  · rw [hab]
    exact mapFind?_erase_self _ _
  · show mapFind? (mapErase (mapErase st.userToRoom m.a) m.b) m.a = none
    rw [mapFind?_erase_ne _ _ _ hab]
    exact mapFind?_erase_self _ _

/-- Witness for C10: a `leave` sent by the uninvolved `carol` connection
with a bogus `userId` tears down `alice`/`bob`'s room. -/
theorem leave_no_membership_check_witness :
    (doLeave c5state "s3"
      (.obj [("roomId", .str "room0"), ("userId", .num 7)])).effects =
      [Effect.emitToRoom (.str "room0") (.ended "room0" "left"),
       Effect.ack true none] ∧
    mapFind? (doLeave c5state "s3"
      (.obj [("roomId", .str "room0"),
        ("userId", .num 7)])).state.rooms "room0" = none :=
  ⟨(leave_no_membership_check c5state "s3" "s1" "room0" ⟨"alice", "bob"⟩
      (.num 7) .null (by decide) rfl).1,
   (leave_no_membership_check c5state "s3" "s1" "room0" ⟨"alice", "bob"⟩
      (.num 7) .null (by decide) rfl).2.1⟩

end WaveChat
